import Mathlib

/-!
Verification development for the bookstore catalog service in cmd/main.go.

The MongoDB collection is modelled as a list of BookStore documents in
natural (insertion) order.  Insertion appends at the end; FindOne,
UpdateOne and DeleteOne act on the first document matching the filter,
as the driver does for an unindexed natural-order scan.  Store
connectivity failures are modelled, where a claim needs them, by an
optional injected error string; otherwise the store is assumed healthy,
matching the error-free paths of the Go code.
-/

namespace Bookstore

/-- The document type stored in the collection (BookStore in main.go).
Go int fields are modelled as Int; none of the claims exercises 64-bit
overflow on them. -/
structure BookStore where
  ID : String
  BookName : String
  BookAuthor : String
  BookISBN : String
  BookPages : Int
  BookYear : Int
deriving DecidableEq

/-- The request body type (BookRequest in main.go): the numeric fields
arrive as strings and the ISBN arrives in the Edition field. -/
structure BookRequest where
  ID : String
  Title : String
  Author : String
  Pages : String
  Edition : String
  Year : String
deriving DecidableEq

/-- Value of the longest decimal-digit prefix of a character list,
accumulator style. -/
def digitsVal : List Char → Nat → Nat
  | c :: cs, acc => if c.isDigit then digitsVal cs (acc * 10 + (c.toNat - 48)) else acc
  | [], acc => acc

def int64Lo : Int := -(2 ^ 63)

def int64Hi : Int := 2 ^ 63 - 1

/-- Models strconv.ParseInt(s, 10, 64): an optional single sign followed
by at least one digit and nothing else, with the value inside the int64
range; anything else fails. -/
def goParseInt64 (s : String) : Option Int :=
  let parse : Int → List Char → Option Int := fun sign ds =>
    if ds ≠ [] ∧ ds.all (·.isDigit) then
      let v : Int := sign * Int.ofNat (digitsVal ds 0)
      if int64Lo ≤ v ∧ v ≤ int64Hi then some v else none
    else none
  match s.data with
  | '+' :: rest => parse 1 rest
  | '-' :: rest => parse (-1) rest
  | cs => parse 1 cs

/-- Models fmt.Sscanf(s, "%d", &n): skips leading blanks, reads an
optional sign and then the longest run of decimal digits, ignores any
trailing characters, and fails when no digit is present or the value
leaves the int64 range. -/
def sscanfInt (s : String) : Option Int :=
  let scan : Int → List Char → Option Int := fun sign ds =>
    match ds with
    | c :: _ =>
      if c.isDigit then
        let v : Int := sign * Int.ofNat (digitsVal ds 0)
        if int64Lo ≤ v ∧ v ≤ int64Hi then some v else none
      else none
    | [] => none
  match s.data.dropWhile (fun c => c == ' ' || c == '\t') with
  | '+' :: rest => scan 1 rest
  | '-' :: rest => scan (-1) rest
  | cs => scan 1 cs

/-- The Pages and Year coercion shared by createBook and updateBook: an
empty input stays 0 and a failed scan resets the value to 0. -/
def coerceNum (s : String) : Int :=
  if s = "" then 0
  else
    match sscanfInt s with
    | some v => v
    | none => 0

/-- BSON compares strings bytewise; on UTF-8 that agrees with codepoint
order, which this comparison implements. -/
def charListLt : List Char → List Char → Bool
  | [], [] => false
  | [], _ :: _ => true
  | _ :: _, [] => false
  | a :: as, b :: bs => decide (a.toNat < b.toNat) || (a.toNat == b.toNat && charListLt as bs)

def strLt (s t : String) : Bool := charListLt s.data t.data

def maxIDRec : BookStore → List BookStore → BookStore
  | best, [] => best
  | best, r :: rest => maxIDRec (if strLt best.ID r.ID then r else best) rest

/-- Models the aggregation pipeline in getNextID: match documents whose
id field exists (every stored document has one), sort by id descending
in the BSON string order, limit 1. -/
def maxID : List BookStore → Option BookStore
  | [] => none
  | r :: rest => some (maxIDRec r rest)

/-- Models getNextID together with the package-level idCounter (seeded
at 1000000): when the pipeline yields a document whose ID parses, the
counter is set to that value plus one, the returned string is the new
counter value, and the counter is bumped once more; otherwise the
current counter value is returned and bumped.  The function returns the
id string and the counter after the call. -/
def getNextID (store : List BookStore) (idCounter : Int) : String × Int :=
  match maxID store with
  | some r =>
    match goParseInt64 r.ID with
    | some v => (toString (v + 1), v + 2)
    | none => (toString idCounter, idCounter + 1)
  | none => (toString idCounter, idCounter + 1)

/-- Models bookExists: FindOne on the five comparable fields succeeds
exactly when some stored document matches all of them. -/
def bookExists (store : List BookStore) (book : BookStore) : Bool :=
  store.any (fun r =>
    r.BookName == book.BookName && r.BookAuthor == book.BookAuthor &&
    r.BookYear == book.BookYear && r.BookPages == book.BookPages &&
    r.BookISBN == book.BookISBN)

/-- Models createBook: coerce Pages and Year, take the request ID or a
generated one, build the document (the request Edition lands in
BookISBN), reject when bookExists holds, otherwise InsertOne appends
the document.  The second component is the idCounter after the call. -/
def createBook (store : List BookStore) (idCounter : Int) (req : BookRequest) :
    Except String (List BookStore) × Int :=
  let pages := coerceNum req.Pages
  let year := coerceNum req.Year
  let idc := if req.ID = "" then getNextID store idCounter else (req.ID, idCounter)
  let book : BookStore := ⟨idc.1, req.Title, req.Author, req.Edition, pages, year⟩
  if bookExists store book then (Except.error "book already exists", idc.2)
  else (Except.ok (store ++ [book]), idc.2)

/-- The document createBook builds from a request before the duplicate
check. -/
def builtBook (store : List BookStore) (idCounter : Int) (req : BookRequest) : BookStore :=
  ⟨(if req.ID = "" then getNextID store idCounter else (req.ID, idCounter)).1,
   req.Title, req.Author, req.Edition, coerceNum req.Pages, coerceNum req.Year⟩

/-- The idCounter value after createBook. -/
def counterAfter (store : List BookStore) (idCounter : Int) (req : BookRequest) : Int :=
  (if req.ID = "" then getNextID store idCounter else (req.ID, idCounter)).2

/-- The document produced by the updateBook $set: every field except the
id is overwritten from the request. -/
def applyUpdate (req : BookRequest) (r : BookStore) : BookStore :=
  ⟨r.ID, req.Title, req.Author, req.Edition, coerceNum req.Pages, coerceNum req.Year⟩

/-- Models UpdateOne on the filter id = id: rewrite the first matching
document; none signals MatchedCount = 0. -/
def updateOneByID : List BookStore → String → (BookStore → BookStore) →
    Option (List BookStore)
  | [], _, _ => none
  | r :: rest, id, f =>
    if r.ID = id then some (f r :: rest)
    else (updateOneByID rest id f).map (r :: ·)

/-- Models updateBook: UpdateOne with a $set of the five mutable fields;
MatchedCount = 0 becomes the book-not-found error. -/
def updateBook (store : List BookStore) (id : String) (req : BookRequest) :
    Except String (List BookStore) :=
  match updateOneByID store id (applyUpdate req) with
  | some store2 => Except.ok store2
  | none => Except.error "book not found"

/-- Models DeleteOne on the filter id = id: remove the first matching
document; none signals DeletedCount = 0. -/
def deleteOneByID : List BookStore → String → Option (List BookStore)
  | [], _ => none
  | r :: rest, id =>
    if r.ID = id then some rest
    else (deleteOneByID rest id).map (r :: ·)

/-- Models deleteBook: DeleteOne by id; DeletedCount = 0 becomes the
book-not-found error. -/
def deleteBook (store : List BookStore) (id : String) :
    Except String (List BookStore) :=
  match deleteOneByID store id with
  | some store2 => Except.ok store2
  | none => Except.error "book not found"

/-- The shape of the maps findAllBooks returns: ID, BookName,
BookAuthor, BookISBN and BookPages only; findAllBooks does not copy
BookYear into the output. -/
structure BookView where
  ID : String
  BookName : String
  BookAuthor : String
  BookISBN : String
  BookPages : Int
deriving DecidableEq

/-- Models findAllBooks: a full scan that converts every document into
the five-key map above. -/
def findAllBooks (store : List BookStore) : List BookView :=
  store.map (fun r => ⟨r.ID, r.BookName, r.BookAuthor, r.BookISBN, r.BookPages⟩)

/-- One loop step of getAuthors, represented on an association list:
the Go map bucket for the author gains the title at the end; a fresh
author is added with a one-title bucket. -/
def addTitle : List (String × List String) → String → String → List (String × List String)
  | [], a, t => [(a, [t])]
  | (k, ts) :: rest, a, t =>
    if k = a then (k, ts ++ [t]) :: rest
    else (k, ts) :: addTitle rest a t

/-- One scan step of getAuthors: documents with an empty BookISBN or an
empty BookName are skipped, every other document appends its BookName
to the bucket of its BookAuthor. -/
def authorStep (m : List (String × List String)) (r : BookStore) :
    List (String × List String) :=
  if r.BookISBN == "" || r.BookName == "" then m
  else addTitle m r.BookAuthor r.BookName

/-- Models getAuthors: the Go map from author to titles, represented as
an association list so that the per-bucket append order is kept; the Go
iteration order over authors is unspecified and not part of any claim. -/
def getAuthors (store : List BookStore) : List (String × List String) :=
  store.foldl authorStep []

/-- Bucket lookup in the association list representing the author map. -/
def lookupA : List (String × List String) → String → Option (List String)
  | [], _ => none
  | (k, ts) :: rest, a => if k = a then some ts else lookupA rest a

/-- One pattern character against one subject character under the regex
i option: a dot matches anything, any other character matches itself
case-insensitively. -/
def charMatchCI (pc sc : Char) : Bool := pc == '.' || pc.toLower == sc.toLower

/-- The pattern matches at the start of the subject. -/
def matchHereCI : List Char → List Char → Bool
  | [], _ => true
  | _ :: _, [] => false
  | pc :: ps, sc :: ss => charMatchCI pc sc && matchHereCI ps ss

/-- Models the MongoDB regex operator with the i option for the
fragment of patterns made of literal characters and dots: an unanchored
case-insensitive match anywhere in the subject.  Other PCRE
metacharacters are outside this model and outside the theorems below. -/
def regexSearchCI : List Char → List Char → Bool
  | p, [] => matchHereCI p []
  | p, s@(_ :: rest) => matchHereCI p s || regexSearchCI p rest

/-- The search filter also carries a bookedition regex clause, but
BookStore documents serialize with no bookedition field, so that clause
matches no document. -/
def editionClause (_r : BookStore) : Bool := false

/-- Models the Find filter of the GET /api/search handler: the query is
a case-insensitive unanchored regex over bookname, bookauthor, bookisbn
and the absent bookedition field. -/
def searchMatch (query : String) (r : BookStore) : Bool :=
  regexSearchCI query.data r.BookName.data ||
  regexSearchCI query.data r.BookAuthor.data ||
  regexSearchCI query.data r.BookISBN.data ||
  editionClause r

/-- Outcome of the GET /api/search handler, keeping the HTTP status and
either the rejection message or the matched documents. -/
inductive SearchResult where
  | badRequest (status : Nat) (msg : String)
  | ok (status : Nat) (books : List BookStore)
deriving DecidableEq

/-- Models the GET /api/search handler on a healthy store: an empty q
is rejected with 400 before any store access, otherwise the regex
filter selects the result set. -/
def searchHandler (store : List BookStore) (query : String) : SearchResult :=
  if query = "" then SearchResult.badRequest 400 "Missing search query"
  else SearchResult.ok 200 (store.filter (searchMatch query))

/-- Models deleteBook including the DeleteOne error return: an injected
store error is propagated as-is, ahead of the DeletedCount check. -/
def deleteBookE (storeErr : Option String) (store : List BookStore) (id : String) :
    Except String (List BookStore) :=
  match storeErr with
  | some e => Except.error e
  | none => deleteBook store id

/-- Response of the DELETE /api/books/:id handler: status plus the kind
of body the handler writes. -/
inductive DeleteResponse where
  | noContent (status : Nat)
  | errorJson (status : Nat) (msg : String)
  | messageJson (status : Nat) (msg : String)
deriving DecidableEq

/-- Models the DELETE /api/books/:id handler: the book-not-found error
becomes 204 No Content, any other delete error becomes a 200 with an
error body, success becomes a 200 with a message body.  The second
component is the store after the request. -/
def deleteHandler (storeErr : Option String) (store : List BookStore) (id : String) :
    DeleteResponse × List BookStore :=
  match deleteBookE storeErr store id with
  | Except.error e =>
    if e = "book not found" then (DeleteResponse.noContent 204, store)
    else (DeleteResponse.errorJson 200 "Failed to delete book", store)
  | Except.ok store2 => (DeleteResponse.messageJson 200 "Book deleted successfully", store2)

/-- Runs a sequence of create requests the way repeated POST /api/books
requests do, threading the store and the idCounter; none records that
some request failed. -/
def insertAllAux : List BookRequest → List BookStore → Int →
    Option (List BookStore × Int)
  | [], store, c => some (store, c)
  | req :: rest, store, c =>
    match createBook store c req with
    | (Except.ok store2, c2) => insertAllAux rest store2 c2
    | (Except.error _, _) => none

/-- The five comparable fields of a stored document, in the order of the
bookExists filter. -/
def fieldTuple (r : BookStore) : String × String × Int × Int × String :=
  (r.BookName, r.BookAuthor, r.BookYear, r.BookPages, r.BookISBN)

/-- The five comparable fields a request produces after coercion. -/
def reqFieldTuple (req : BookRequest) : String × String × Int × Int × String :=
  (req.Title, req.Author, coerceNum req.Year, coerceNum req.Pages, req.Edition)

/-- The fields a findAllBooks entry exposes beyond the ID. -/
def viewTuple (v : BookView) : String × String × String × Int :=
  (v.BookName, v.BookAuthor, v.BookISBN, v.BookPages)

/-- The findAllBooks-visible fields a request produces after coercion. -/
def reqViewTuple (req : BookRequest) : String × String × String × Int :=
  (req.Title, req.Author, req.Edition, coerceNum req.Pages)

/-- The fields that determine how getAuthors treats a document. -/
def authorTitleISBN (r : BookStore) : String × String × String :=
  (r.BookAuthor, r.BookName, r.BookISBN)

/-- Spec-side definition, from the claim words: the numerically largest
value among the store IDs that parse as integers. -/
def numericMaxID (store : List BookStore) : Option Int :=
  store.foldl
    (fun acc r =>
      match goParseInt64 r.ID, acc with
      | some v, some m => some (max v m)
      | some v, none => some v
      | none, acc2 => acc2) none

/-- One literal pattern character against one subject character,
case-insensitively; no dot wildcard. -/
def litCharCI (pc sc : Char) : Bool := pc.toLower == sc.toLower

/-- The literal pattern occurs at the start of the subject. -/
def litHereCI : List Char → List Char → Bool
  | [], _ => true
  | _ :: _, [] => false
  | pc :: ps, sc :: ss => litCharCI pc sc && litHereCI ps ss

/-- The literal pattern occurs somewhere in the subject. -/
def litSearchCI : List Char → List Char → Bool
  | p, [] => litHereCI p []
  | p, s@(_ :: rest) => litHereCI p s || litSearchCI p rest

/-- Spec-side definition, from the claim words: the query occurs in the
subject as a case-insensitive unanchored substring. -/
def substrCI (q s : String) : Bool := litSearchCI q.data s.data

/-- The PCRE metacharacters; the braces are written by code point. -/
def regexMeta : List Char :=
  ['.', '^', '$', '*', '+', '?', '(', ')', '[', ']', '|', '\\',
   Char.ofNat 123, Char.ofNat 125]

/-- The query contains no regex metacharacter, so the regex engine
treats it as a literal. -/
def isLiteralQuery (q : String) : Bool :=
  q.data.all (fun c => !(regexMeta.contains c))

/-! Helper lemmas -/

theorem bookExists_iff (store : List BookStore) (b : BookStore) :
    bookExists store b = true ↔
      ∃ r ∈ store, r.BookName = b.BookName ∧ r.BookAuthor = b.BookAuthor ∧
        r.BookYear = b.BookYear ∧ r.BookPages = b.BookPages ∧ r.BookISBN = b.BookISBN := by
  simp [bookExists, List.any_eq_true, Bool.and_eq_true, beq_iff_eq, and_assoc]

theorem createBook_of_exists (store : List BookStore) (c : Int) (req : BookRequest)
    (h : bookExists store (builtBook store c req) = true) :
    (createBook store c req).1 = Except.error "book already exists" := by
  simp only [builtBook] at h
  simp [createBook, h]

theorem createBook_of_not_exists (store : List BookStore) (c : Int) (req : BookRequest)
    (h : bookExists store (builtBook store c req) = false) :
    (createBook store c req).1 = Except.ok (store ++ [builtBook store c req]) := by
  simp only [builtBook] at h ⊢
  simp [createBook, h]

theorem updateOneByID_none_iff (store : List BookStore) (id : String)
    (f : BookStore → BookStore) :
    updateOneByID store id f = none ↔ ∀ r ∈ store, r.ID ≠ id := by
  induction store with
  | nil => simp [updateOneByID]
  | cons r rest ih =>
    by_cases h : r.ID = id
    · simp [updateOneByID, h]
    · simp [updateOneByID, h, Option.map_eq_none', ih]

theorem updateOneByID_first (id : String) (f : BookStore → BookStore)
    (pre : List BookStore) (r : BookStore) (post : List BookStore)
    (hpre : ∀ p ∈ pre, p.ID ≠ id) (hr : r.ID = id) :
    updateOneByID (pre ++ r :: post) id f = some (pre ++ f r :: post) := by
  induction pre with
  | nil => simp [updateOneByID, hr]
  | cons p ps ih =>
    have hp : p.ID ≠ id := hpre p (by simp)
    simp [updateOneByID, hp, ih (fun q hq => hpre q (by simp [hq]))]

theorem deleteOneByID_none_iff (store : List BookStore) (id : String) :
    deleteOneByID store id = none ↔ ∀ r ∈ store, r.ID ≠ id := by
  induction store with
  | nil => simp [deleteOneByID]
  | cons r rest ih =>
    by_cases h : r.ID = id
    · simp [deleteOneByID, h]
    · simp [deleteOneByID, h, Option.map_eq_none', ih]

theorem deleteOneByID_countP (store : List BookStore) (id : String)
    (store2 : List BookStore) (h : deleteOneByID store id = some store2) :
    store.countP (fun r => r.ID == id) = store2.countP (fun r => r.ID == id) + 1 := by
  induction store generalizing store2 with
  | nil => simp [deleteOneByID] at h
  | cons r rest ih =>
    by_cases hr : r.ID = id
    · simp [deleteOneByID, hr] at h
      subst h
      simp [List.countP_cons, hr]
    · simp [deleteOneByID, hr, Option.map_eq_some'] at h
      obtain ⟨s3, h3, rfl⟩ := h
      simp [List.countP_cons, hr, ih s3 h3]

/-- C1: for every create request, insert fails with the duplicate error
exactly when some stored record matches all five comparable fields
(Title, Author, Year, Pages, ISBN) of the candidate document, and
otherwise the candidate is appended to the store and insert succeeds. -/
theorem createBook_duplicate_iff (store : List BookStore) (c : Int) (req : BookRequest) :
    ((createBook store c req).1 = Except.error "book already exists" ↔
      ∃ r ∈ store, r.BookName = (builtBook store c req).BookName ∧
        r.BookAuthor = (builtBook store c req).BookAuthor ∧
        r.BookYear = (builtBook store c req).BookYear ∧
        r.BookPages = (builtBook store c req).BookPages ∧
        r.BookISBN = (builtBook store c req).BookISBN) ∧
    ((¬ ∃ r ∈ store, r.BookName = (builtBook store c req).BookName ∧
        r.BookAuthor = (builtBook store c req).BookAuthor ∧
        r.BookYear = (builtBook store c req).BookYear ∧
        r.BookPages = (builtBook store c req).BookPages ∧
        r.BookISBN = (builtBook store c req).BookISBN) →
      (createBook store c req).1 = Except.ok (store ++ [builtBook store c req])) := by
  have hb := bookExists_iff store (builtBook store c req)
  by_cases h : bookExists store (builtBook store c req) = true
  · constructor
    · rw [createBook_of_exists store c req h]
      simpa using hb.1 h
    · intro hno
      exact absurd (hb.1 h) hno
  · have hf : bookExists store (builtBook store c req) = false := by
      simpa using h
    constructor
    · rw [createBook_of_not_exists store c req hf]
      constructor
      · intro hcontra
        exact absurd hcontra (by simp)
      · intro hex
        exact absurd (hb.2 hex) h
    · intro _
      exact createBook_of_not_exists store c req hf

/-- Witness for C1 at a concrete non-duplicate insert. -/
theorem createBook_duplicate_iff_witness :
    (createBook [⟨"1", "T", "A", "I", 1, 1⟩] 1000000 ⟨"7", "T2", "A2", "2", "I2", "2000"⟩).1 =
      Except.ok [⟨"1", "T", "A", "I", 1, 1⟩, ⟨"7", "T2", "A2", "I2", 2, 2000⟩] :=
  ((createBook_duplicate_iff [⟨"1", "T", "A", "I", 1, 1⟩] 1000000
      ⟨"7", "T2", "A2", "2", "I2", "2000"⟩).2 (by decide)).trans (by rfl)

/-- C4: updateByID fails with the not-found error when no stored record
has the requested ID; when the store splits around the first record with
that ID, the update rewrites exactly that record, overwriting all five
mutable fields with the coerced request values and keeping its ID. -/
theorem updateBook_spec (store : List BookStore) (id : String) (req : BookRequest) :
    ((∀ r ∈ store, r.ID ≠ id) → updateBook store id req = Except.error "book not found") ∧
    (∀ (pre : List BookStore) (r : BookStore) (post : List BookStore),
      store = pre ++ r :: post → (∀ p ∈ pre, p.ID ≠ id) → r.ID = id →
      updateBook store id req = Except.ok (pre ++ applyUpdate req r :: post) ∧
        (applyUpdate req r).ID = r.ID ∧
        applyUpdate req r =
          ⟨r.ID, req.Title, req.Author, req.Edition,
            coerceNum req.Pages, coerceNum req.Year⟩) := by
  constructor
  · intro h
    have hnone := (updateOneByID_none_iff store id (applyUpdate req)).2 h
    simp [updateBook, hnone]
  · intro pre r post hs hpre hr
    subst hs
    have hfirst := updateOneByID_first id (applyUpdate req) pre r post hpre hr
    refine ⟨by simp [updateBook, hfirst], rfl, rfl⟩

/-- Witness for C4: a miss reports not-found and a hit rewrites the
record in place. -/
theorem updateBook_spec_witness :
    updateBook [⟨"1", "a", "b", "c", 1, 1⟩, ⟨"2", "x", "y", "z", 2, 2⟩] "3"
        ⟨"9", "NT", "NA", "5", "NI", "2001"⟩ = Except.error "book not found" ∧
    updateBook [⟨"1", "a", "b", "c", 1, 1⟩, ⟨"2", "x", "y", "z", 2, 2⟩] "2"
        ⟨"9", "NT", "NA", "5", "NI", "2001"⟩ =
      Except.ok [⟨"1", "a", "b", "c", 1, 1⟩, ⟨"2", "NT", "NA", "NI", 5, 2001⟩] :=
  ⟨(updateBook_spec [⟨"1", "a", "b", "c", 1, 1⟩, ⟨"2", "x", "y", "z", 2, 2⟩] "3"
      ⟨"9", "NT", "NA", "5", "NI", "2001"⟩).1 (by decide),
   (((updateBook_spec [⟨"1", "a", "b", "c", 1, 1⟩, ⟨"2", "x", "y", "z", 2, 2⟩] "2"
      ⟨"9", "NT", "NA", "5", "NI", "2001"⟩).2 [⟨"1", "a", "b", "c", 1, 1⟩]
      ⟨"2", "x", "y", "z", 2, 2⟩ [] rfl (by decide) rfl).1).trans (by rfl)⟩

/-- C5: deleteByID succeeds exactly when some stored record has the
requested ID and fails with the not-found error otherwise; when the ID
occurs at most once, a successful delete leaves a store on which the
same delete fails with the not-found error, so the second call changes
nothing. -/
theorem deleteBook_spec (store : List BookStore) (id : String) :
    ((∀ r ∈ store, r.ID ≠ id) → deleteBook store id = Except.error "book not found") ∧
    ((∃ r ∈ store, r.ID = id) → ∃ store2, deleteBook store id = Except.ok store2) ∧
    (store.countP (fun r => r.ID == id) ≤ 1 →
      ∀ store2, deleteBook store id = Except.ok store2 →
        deleteBook store2 id = Except.error "book not found") := by
  refine ⟨?_, ?_, ?_⟩
  · intro h
    simp [deleteBook, (deleteOneByID_none_iff store id).2 h]
  · rintro ⟨r, hr, hid⟩
    cases hdel : deleteOneByID store id with
    | none => exact absurd hid ((deleteOneByID_none_iff store id).1 hdel r hr)
    | some s2 => exact ⟨s2, by simp [deleteBook, hdel]⟩
  · intro hle store2 hok
    have hdel : deleteOneByID store id = some store2 := by
      cases hdel2 : deleteOneByID store id with
      | none => simp [deleteBook, hdel2] at hok
      | some s2 =>
        simp [deleteBook, hdel2] at hok
        rw [hok]
    have hcount := deleteOneByID_countP store id store2 hdel
    have h0 : store2.countP (fun r => r.ID == id) = 0 := by omega
    have hall : ∀ r ∈ store2, r.ID ≠ id := by
      intro r hr
      have := List.countP_eq_zero.mp h0 r hr
      simpa [beq_iff_eq] using this
    simp [deleteBook, (deleteOneByID_none_iff store2 id).2 hall]

/-- Witness for C5: deleting the only record succeeds and the second
delete on the same ID reports not-found. -/
theorem deleteBook_spec_witness :
    deleteBook [⟨"1", "a", "b", "c", 1, 1⟩] "1" = Except.ok [] ∧
    deleteBook ([] : List BookStore) "1" = Except.error "book not found" :=
  ⟨by rfl,
   (deleteBook_spec [⟨"1", "a", "b", "c", 1, 1⟩] "1").2.2 (by decide) [] (by rfl)⟩

theorem createBook_ok_eq (store : List BookStore) (c : Int) (req : BookRequest)
    (store2 : List BookStore) (h : (createBook store c req).1 = Except.ok store2) :
    store2 = store ++ [builtBook store c req] := by
  by_cases hex : bookExists store (builtBook store c req) = true
  · rw [createBook_of_exists store c req hex] at h
    simp at h
  · rw [createBook_of_not_exists store c req (by simpa using hex)] at h
    exact (Except.ok.inj h).symm

theorem updateOneByID_map_ID (id : String) (f : BookStore → BookStore)
    (hf : ∀ r, (f r).ID = r.ID) (store : List BookStore) :
    ∀ store2, updateOneByID store id f = some store2 →
      store2.map BookStore.ID = store.map BookStore.ID := by
  induction store with
  | nil => intro s2 h; simp [updateOneByID] at h
  | cons r rest ih =>
    intro s2 h
    by_cases hr : r.ID = id
    · simp [updateOneByID, hr] at h
      subst h
      simp [hf r]
    · simp [updateOneByID, hr, Option.map_eq_some'] at h
      obtain ⟨s3, h3, rfl⟩ := h
      simp [ih s3 h3]

theorem deleteOneByID_sublist (id : String) (store : List BookStore) :
    ∀ store2, deleteOneByID store id = some store2 → List.Sublist store2 store := by
  induction store with
  | nil => intro s2 h; simp [deleteOneByID] at h
  | cons r rest ih =>
    intro s2 h
    by_cases hr : r.ID = id
    · simp [deleteOneByID, hr] at h
      subst h
      exact List.sublist_cons_self r rest
    · simp [deleteOneByID, hr, Option.map_eq_some'] at h
      obtain ⟨s3, h3, rfl⟩ := h
      exact List.Sublist.cons₂ r (ih s3 h3)

/-- C3 (amended): updateByID and deleteByID always preserve pairwise
distinct IDs, and insert preserves them whenever the candidate ID is
not already present; a successful insert whose candidate reuses a
stored ID with a different field tuple, however, leaves two records
with the same ID. -/
theorem idUnique_preservation :
    (∀ (store : List BookStore) (id : String) (req : BookRequest) (store2 : List BookStore),
      updateBook store id req = Except.ok store2 →
      (store.map BookStore.ID).Nodup → (store2.map BookStore.ID).Nodup) ∧
    (∀ (store : List BookStore) (id : String) (store2 : List BookStore),
      deleteBook store id = Except.ok store2 →
      (store.map BookStore.ID).Nodup → (store2.map BookStore.ID).Nodup) ∧
    (∀ (store : List BookStore) (c : Int) (req : BookRequest) (store2 : List BookStore),
      (createBook store c req).1 = Except.ok store2 →
      (store.map BookStore.ID).Nodup →
      (builtBook store c req).ID ∉ store.map BookStore.ID →
      (store2.map BookStore.ID).Nodup) := by
  refine ⟨?_, ?_, ?_⟩
  · intro store id req store2 hok hnd
    have hup : updateOneByID store id (applyUpdate req) = some store2 := by
      cases hup2 : updateOneByID store id (applyUpdate req) with
      | none => simp [updateBook, hup2] at hok
      | some s2 =>
        simp [updateBook, hup2] at hok
        rw [hok]
    rw [updateOneByID_map_ID id (applyUpdate req) (fun _ => rfl) store store2 hup]
    exact hnd
  · intro store id store2 hok hnd
    have hdel : deleteOneByID store id = some store2 := by
      cases hdel2 : deleteOneByID store id with
      | none => simp [deleteBook, hdel2] at hok
      | some s2 =>
        simp [deleteBook, hdel2] at hok
        rw [hok]
    exact hnd.sublist ((deleteOneByID_sublist id store store2 hdel).map BookStore.ID)
  · intro store c req store2 hok hnd hnew
    rw [createBook_ok_eq store c req store2 hok]
    simp [List.nodup_append, hnd]
    intro x hx hcontra
    exact hnew (List.mem_map.2 ⟨x, hx, hcontra⟩)

/-- C3 counterexample: a create request that reuses the stored ID 42
with a different field tuple passes the duplicate check and succeeds,
leaving two records with ID 42. -/
theorem idUnique_counterexample :
    (createBook [⟨"42", "A", "B", "I", 1, 2⟩] 1000000 ⟨"42", "X", "Y", "", "", ""⟩).1 =
      Except.ok [⟨"42", "A", "B", "I", 1, 2⟩, ⟨"42", "X", "Y", "", 0, 0⟩] ∧
    ¬ (([⟨"42", "A", "B", "I", 1, 2⟩, ⟨"42", "X", "Y", "", 0, 0⟩] : List BookStore).map
        BookStore.ID).Nodup :=
  ⟨by rfl, by decide⟩

/-- Witness for C3: a fresh-ID insert into a distinct-ID store keeps
the IDs pairwise distinct. -/
theorem idUnique_preservation_witness :
    (([⟨"1", "T", "A", "I", 1, 1⟩, ⟨"2", "U", "B", "J", 0, 0⟩] : List BookStore).map
        BookStore.ID).Nodup :=
  idUnique_preservation.2.2 [⟨"1", "T", "A", "I", 1, 1⟩] 1000000 ⟨"2", "U", "B", "", "J", ""⟩
    [⟨"1", "T", "A", "I", 1, 1⟩, ⟨"2", "U", "B", "J", 0, 0⟩] (by rfl) (by decide) (by decide)

theorem charListLt_asymm : ∀ as bs : List Char,
    charListLt as bs = true → charListLt bs as = false := by
  intro as
  induction as with
  | nil =>
    intro bs h
    cases bs with
    | nil => simp [charListLt] at h
    | cons b bs' => simp [charListLt]
  | cons a as' ih =>
    intro bs h
    cases bs with
    | nil => simp [charListLt] at h
    | cons b bs' =>
      simp only [charListLt, Bool.or_eq_true, decide_eq_true_eq, Bool.and_eq_true,
        beq_iff_eq] at h
      rcases h with h1 | ⟨h2, h3⟩
      · have hn1 : ¬ b.toNat < a.toNat := by omega
        have hn2 : ¬ b.toNat = a.toNat := by omega
        simp [charListLt, hn1, hn2]
      · have hn1 : ¬ b.toNat < a.toNat := by omega
        simp [charListLt, hn1, h2, ih bs' h3]

theorem charListLt_irrefl : ∀ as : List Char, charListLt as as = false := by
  intro as
  induction as with
  | nil => rfl
  | cons a as' ih => simp [charListLt, ih]

theorem maxIDRec_eq (r : BookStore) :
    ∀ (l : List BookStore) (best : BookStore),
      (r = best ∨ r ∈ l) →
      (∀ x, (x = best ∨ x ∈ l) → x = r ∨ strLt x.ID r.ID = true) →
      maxIDRec best l = r := by
  intro l
  induction l with
  | nil =>
    intro best hmem _
    rcases hmem with rfl | h
    · rfl
    · cases h
  | cons y t ih =>
    intro best hmem hmax
    show maxIDRec (if strLt best.ID y.ID then y else best) t = r
    apply ih
    · rcases hmem with rfl | hyt
      · left
        have hfalse : strLt y.ID r.ID = true → strLt r.ID y.ID = false :=
          fun hlt => charListLt_asymm _ _ hlt
        have hy : strLt r.ID y.ID = false := by
          rcases hmax y (Or.inr (List.mem_cons_self y t)) with rfl | hlt
          · exact charListLt_irrefl _
          · exact hfalse hlt
        simp [strLt] at hy
        simp [strLt, hy]
      · rcases List.mem_cons.mp hyt with rfl | ht
        · by_cases hby : strLt best.ID r.ID = true
          · left
            simp [hby]
          · rcases hmax best (Or.inl rfl) with hbr | hlt
            · left
              simp [hby, hbr]
            · exact absurd hlt hby
        · right
          exact ht
    · intro x hx
      apply hmax
      rcases hx with rfl | hxt
      · by_cases hby : strLt best.ID y.ID = true
        · right
          simp [hby]
        · left
          simp [hby]
      · right
        exact List.mem_cons_of_mem y hxt

theorem maxID_eq (store : List BookStore) (r : BookStore)
    (hmem : r ∈ store) (hmax : ∀ x ∈ store, x = r ∨ strLt x.ID r.ID = true) :
    maxID store = some r := by
  cases store with
  | nil => cases hmem
  | cons h t =>
    show some (maxIDRec h t) = some r
    congr 1
    apply maxIDRec_eq r t h
    · rcases List.mem_cons.mp hmem with rfl | ht
      · exact Or.inl rfl
      · exact Or.inr ht
    · intro x hx
      apply hmax
      rcases hx with rfl | hxt
      · exact List.mem_cons_self x t
      · exact List.mem_cons_of_mem h hxt

/-- C2 (amended): on the empty store getNextID is driven by the
in-process counter seeded at 1000000, so the first call returns
1000000 and the second 1000001; on a non-empty store the pipeline
fetches the record whose ID is greatest in the BSON string
(lexicographic) order, returns that ID parsed plus one in decimal when
it parses, and falls back to the counter when parsing fails. -/
theorem getNextID_spec (store : List BookStore) (c v : Int) (r : BookStore) :
    (getNextID [] 1000000 = ("1000000", 1000001) ∧
     getNextID [] 1000001 = ("1000001", 1000002)) ∧
    (r ∈ store → (∀ x ∈ store, x = r ∨ strLt x.ID r.ID = true) →
      ((goParseInt64 r.ID = some v → getNextID store c = (toString (v + 1), v + 2)) ∧
       (goParseInt64 r.ID = none → getNextID store c = (toString c, c + 1)))) := by
  refine ⟨⟨by decide, by decide⟩, ?_⟩
  intro hmem hmax
  have hm := maxID_eq store r hmem hmax
  constructor
  · intro hp
    simp [getNextID, hm, hp]
  · intro hp
    simp [getNextID, hm, hp]

/-- C2 counterexample: with stored IDs 999 and 1000 the numerically
largest ID is 1000, but the pipeline sorts the ID strings, picks "999",
and returns "1000" rather than "1001" — an ID that is already in use. -/
theorem getNextID_counterexample :
    numericMaxID [⟨"999", "a", "b", "c", 1, 1⟩, ⟨"1000", "d", "e", "f", 2, 2⟩] = some 1000 ∧
    (getNextID [⟨"999", "a", "b", "c", 1, 1⟩, ⟨"1000", "d", "e", "f", 2, 2⟩] 1000000).1 =
      "1000" ∧
    (getNextID [⟨"999", "a", "b", "c", 1, 1⟩, ⟨"1000", "d", "e", "f", 2, 2⟩] 1000000).1 ≠
      toString ((1000 : Int) + 1) :=
  ⟨by decide, by decide, by decide⟩

/-- Witness for C2 on a store whose string-greatest ID is "7". -/
theorem getNextID_spec_witness :
    getNextID [⟨"5", "a", "b", "c", 1, 1⟩, ⟨"7", "d", "e", "f", 2, 2⟩] 42 = ("8", 9) :=
  ((getNextID_spec [⟨"5", "a", "b", "c", 1, 1⟩, ⟨"7", "d", "e", "f", 2, 2⟩] 42 7
      ⟨"7", "d", "e", "f", 2, 2⟩).2 (by decide) (by decide)).1 (by decide)

theorem coerceNum_of_scan_fail (s : String) (h : sscanfInt s = none) : coerceNum s = 0 := by
  by_cases he : s = ""
  · simp [coerceNum, he]
  · simp [coerceNum, he, h]

/-- C8: when the Pages and Year strings fail the integer scan, the
document built on create and the document written on update both carry
0 in the numeric fields, and the only errors create and update can
surface remain the duplicate and not-found errors — a parse failure is
never surfaced. -/
theorem coercion_spec (store : List BookStore) (c : Int) (req : BookRequest)
    (id : String) (r : BookStore)
    (hp : sscanfInt req.Pages = none) (hy : sscanfInt req.Year = none) :
    (builtBook store c req).BookPages = 0 ∧ (builtBook store c req).BookYear = 0 ∧
    (applyUpdate req r).BookPages = 0 ∧ (applyUpdate req r).BookYear = 0 ∧
    (∀ e, (createBook store c req).1 = Except.error e → e = "book already exists") ∧
    (∀ e, updateBook store id req = Except.error e → e = "book not found") := by
  refine ⟨?_, ?_, ?_, ?_, ?_, ?_⟩
  · simp [builtBook, coerceNum_of_scan_fail _ hp]
  · simp [builtBook, coerceNum_of_scan_fail _ hy]
  · simp [applyUpdate, coerceNum_of_scan_fail _ hp]
  · simp [applyUpdate, coerceNum_of_scan_fail _ hy]
  · intro e he
    by_cases hex : bookExists store (builtBook store c req) = true
    · rw [createBook_of_exists store c req hex] at he
      exact (Except.error.inj he).symm
    · rw [createBook_of_not_exists store c req (by simpa using hex)] at he
      simp at he
  · intro e he
    cases hup : updateOneByID store id (applyUpdate req) with
    | some s2 => simp [updateBook, hup] at he
    | none =>
      simp [updateBook, hup] at he
      exact he.symm

/-- Witness for C8 at the unparsable inputs abc for Pages and Year. -/
theorem coercion_spec_witness :
    sscanfInt "abc" = none ∧
    (builtBook [] 1000000 ⟨"3", "T", "A", "abc", "E", "abc"⟩).BookPages = 0 :=
  ⟨by decide,
   (coercion_spec [] 1000000 ⟨"3", "T", "A", "abc", "E", "abc"⟩ "1"
      ⟨"1", "a", "b", "c", 1, 1⟩ (by decide) (by decide)).1⟩

theorem fieldTuple_builtBook (store : List BookStore) (c : Int) (req : BookRequest) :
    fieldTuple (builtBook store c req) = reqFieldTuple req := rfl

theorem bookExists_mem_iff (store : List BookStore) (b : BookStore) :
    bookExists store b = true ↔ fieldTuple b ∈ store.map fieldTuple := by
  rw [bookExists_iff]
  simp [fieldTuple, List.mem_map, Prod.mk.injEq, and_assoc]

theorem insertAll_go (reqs : List BookRequest) :
    ∀ (store : List BookStore) (c : Int),
      (store.map fieldTuple ++ reqs.map reqFieldTuple).Nodup →
      ∃ final c2, insertAllAux reqs store c = some (final, c2) ∧
        final.map fieldTuple = store.map fieldTuple ++ reqs.map reqFieldTuple := by
  induction reqs with
  | nil =>
    intro store c _
    exact ⟨store, c, rfl, by simp⟩
  | cons req rest ih =>
    intro store c hnd
    rw [List.map_cons] at hnd
    have hdisj := (List.nodup_append.mp hnd).2.2
    have hnotmem : reqFieldTuple req ∉ store.map fieldTuple := by
      intro hmem
      exact hdisj hmem (by simp)
    have hex : bookExists store (builtBook store c req) = false := by
      rw [Bool.eq_false_iff]
      intro htrue
      rw [bookExists_mem_iff, fieldTuple_builtBook] at htrue
      exact hnotmem htrue
    have hpair : createBook store c req =
        (Except.ok (store ++ [builtBook store c req]), counterAfter store c req) := by
      rw [Prod.ext_iff]
      refine ⟨createBook_of_not_exists store c req hex, ?_⟩
      simp only [createBook, counterAfter]
      split <;> (split <;> rfl)
    have hnd2 : ((store ++ [builtBook store c req]).map fieldTuple ++
        rest.map reqFieldTuple).Nodup := by
      rw [List.map_append, List.append_assoc]
      simpa [fieldTuple_builtBook] using hnd
    obtain ⟨final, c2, heq, hmap⟩ :=
      ih (store ++ [builtBook store c req]) (counterAfter store c req) hnd2
    refine ⟨final, c2, ?_, ?_⟩
    · simp only [insertAllAux, hpair]
      exact heq
    · rw [hmap, List.map_append]
      simp [fieldTuple_builtBook]

/-- C6 (amended): for every sequence of inserts with pairwise-distinct
field tuples into an initially empty store, every insert succeeds and
listAll returns exactly the inserted records, in insertion order, each
projected to its ID, Title, Author, ISBN and Pages fields — the Year
field is not part of the listAll output. -/
theorem listAll_spec (reqs : List BookRequest) (c : Int)
    (h : (reqs.map reqFieldTuple).Nodup) :
    ∃ final c2, insertAllAux reqs [] c = some (final, c2) ∧
      (findAllBooks final).map viewTuple = reqs.map reqViewTuple := by
  obtain ⟨final, c2, heq, hmap⟩ := insertAll_go reqs [] c (by simpa using h)
  refine ⟨final, c2, heq, ?_⟩
  have hview : (findAllBooks final).map viewTuple =
      (final.map fieldTuple).map (fun t => (t.1, t.2.1, t.2.2.2.2, t.2.2.2.1)) := by
    simp only [findAllBooks, List.map_map]
    rfl
  rw [hview, hmap]
  simp only [List.map_nil, List.nil_append, List.map_map]
  rfl

/-- C6 counterexample: two single-insert stores whose requests differ
only in Year produce different stored records but identical findAllBooks
output, so listAll does not return each record with all of its fields. -/
theorem listAll_counterexample :
    (createBook [] 1000000 ⟨"1", "T", "A", "1", "E", "1999"⟩).1 =
      Except.ok [⟨"1", "T", "A", "E", 1, 1999⟩] ∧
    (createBook [] 1000000 ⟨"1", "T", "A", "1", "E", "2000"⟩).1 =
      Except.ok [⟨"1", "T", "A", "E", 1, 2000⟩] ∧
    (⟨"1", "T", "A", "E", 1, 1999⟩ : BookStore) ≠ ⟨"1", "T", "A", "E", 1, 2000⟩ ∧
    findAllBooks [⟨"1", "T", "A", "E", 1, 1999⟩] =
      findAllBooks [⟨"1", "T", "A", "E", 1, 2000⟩] :=
  ⟨by rfl, by rfl, by decide, by decide⟩

/-- Witness for C6 on two distinct concrete requests. -/
theorem listAll_spec_witness :
    (([⟨"1", "T1", "A1", "1", "E1", "1990"⟩, ⟨"2", "T2", "A2", "2", "E2", "1991"⟩] :
        List BookRequest).map reqFieldTuple).Nodup ∧
    ∃ final c2,
      insertAllAux
        [⟨"1", "T1", "A1", "1", "E1", "1990"⟩, ⟨"2", "T2", "A2", "2", "E2", "1991"⟩]
        [] 1000000 = some (final, c2) ∧
      (findAllBooks final).map viewTuple =
        ([⟨"1", "T1", "A1", "1", "E1", "1990"⟩, ⟨"2", "T2", "A2", "2", "E2", "1991"⟩] :
          List BookRequest).map reqViewTuple :=
  ⟨by decide, listAll_spec _ 1000000 (by decide)⟩

theorem lookupA_addTitle_same (m : List (String × List String)) (a t : String) :
    lookupA (addTitle m a t) a = some ((lookupA m a).getD [] ++ [t]) := by
  induction m with
  | nil => simp [addTitle, lookupA]
  | cons kv rest ih =>
    obtain ⟨k, ts⟩ := kv
    by_cases hk : k = a
    · subst hk
      simp [addTitle, lookupA]
    · simp [addTitle, lookupA, hk, ih]

theorem lookupA_addTitle_ne (m : List (String × List String)) (b t a : String)
    (hba : b ≠ a) : lookupA (addTitle m b t) a = lookupA m a := by
  induction m with
  | nil => simp [addTitle, lookupA, hba]
  | cons kv rest ih =>
    obtain ⟨k, ts⟩ := kv
    by_cases hk : k = b
    · subst hk
      simp [addTitle, lookupA, hba]
    · simp [addTitle, lookupA, hk, ih]

theorem lookupA_fold (store : List BookStore) :
    ∀ (m : List (String × List String)) (a : String),
      (lookupA (store.foldl authorStep m) a).getD [] =
        (lookupA m a).getD [] ++
          (store.filter (fun r => !(r.BookISBN == "" || r.BookName == "") &&
            r.BookAuthor == a)).map BookStore.BookName := by
  induction store with
  | nil => intro m a; simp
  | cons r rest ih =>
    intro m a
    rw [List.foldl_cons, List.filter_cons]
    by_cases hskip : (r.BookISBN == "" || r.BookName == "") = true
    · have hstep : authorStep m r = m := by simp [authorStep, hskip]
      rw [hstep, ih]
      simp [hskip]
    · have hskipf : (r.BookISBN == "" || r.BookName == "") = false := by simpa using hskip
      have hstep : authorStep m r = addTitle m r.BookAuthor r.BookName := by
        simp [authorStep, hskipf]
      rw [hstep]
      by_cases ha : r.BookAuthor = a
      · subst ha
        rw [ih, lookupA_addTitle_same]
        simp [hskipf, List.append_assoc]
      · rw [ih, lookupA_addTitle_ne m r.BookAuthor r.BookName a ha]
        simp [hskipf, ha]

/-- The getAuthors scan step expressed on the projected triple of
author, title and ISBN. -/
def authorStep3 (m : List (String × List String)) (t : String × String × String) :
    List (String × List String) :=
  if t.2.2 == "" || t.2.1 == "" then m else addTitle m t.1 t.2.1

theorem getAuthors_factor (store : List BookStore) :
    ∀ m, store.foldl authorStep m = (store.map authorTitleISBN).foldl authorStep3 m := by
  induction store with
  | nil => intro m; rfl
  | cons r rest ih =>
    intro m
    rw [List.map_cons, List.foldl_cons, List.foldl_cons, ih]
    rfl

/-- C9: the bucket getAuthors builds for an author holds exactly the
titles of the scanned records whose Title and ISBN are non-empty and
whose Author is that author, in scan order; and the whole getAuthors
result depends only on the Author, Title and ISBN fields of the
records. -/
theorem groupByAuthor_spec :
    (∀ (store : List BookStore) (a : String),
      (lookupA (getAuthors store) a).getD [] =
        (store.filter (fun r => !(r.BookISBN == "" || r.BookName == "") &&
          r.BookAuthor == a)).map BookStore.BookName) ∧
    (∀ s t : List BookStore, s.map authorTitleISBN = t.map authorTitleISBN →
      getAuthors s = getAuthors t) := by
  constructor
  · intro store a
    have h := lookupA_fold store [] a
    simpa [getAuthors] using h
  · intro s t h
    unfold getAuthors
    rw [getAuthors_factor s [], getAuthors_factor t [], h]

/-- Witness for C9: the author A bucket collects T1 and T2 in scan
order past a record with an empty Title, and records agreeing on
Author, Title and ISBN group identically. -/
theorem groupByAuthor_spec_witness :
    (lookupA (getAuthors [⟨"1", "T1", "A", "I1", 1, 1⟩, ⟨"2", "", "A", "I2", 1, 1⟩,
        ⟨"3", "T2", "A", "I3", 1, 1⟩]) "A").getD [] = ["T1", "T2"] ∧
    getAuthors [⟨"1", "T1", "A", "I", 5, 5⟩] = getAuthors [⟨"9", "T1", "A", "I", 7, 7⟩] :=
  ⟨(groupByAuthor_spec.1 [⟨"1", "T1", "A", "I1", 1, 1⟩, ⟨"2", "", "A", "I2", 1, 1⟩,
      ⟨"3", "T2", "A", "I3", 1, 1⟩] "A").trans (by decide),
   groupByAuthor_spec.2 [⟨"1", "T1", "A", "I", 5, 5⟩] [⟨"9", "T1", "A", "I", 7, 7⟩]
     (by decide)⟩

theorem matchHereCI_literal : ∀ p : List Char, '.' ∉ p →
    ∀ s, matchHereCI p s = litHereCI p s := by
  intro p
  induction p with
  | nil => intro _ s; rfl
  | cons pc ps ih =>
    intro hdot s
    have hpc : pc ≠ '.' := fun h => hdot (by simp [h])
    have hps : '.' ∉ ps := fun h => hdot (List.mem_cons_of_mem pc h)
    cases s with
    | nil => rfl
    | cons sc ss =>
      have h1 : (pc == '.') = false := by simpa using hpc
      simp [matchHereCI, litHereCI, charMatchCI, litCharCI, h1, ih hps ss]

theorem regexSearchCI_literal (p : List Char) (hdot : '.' ∉ p) :
    ∀ s, regexSearchCI p s = litSearchCI p s := by
  intro s
  induction s with
  | nil => simp [regexSearchCI, litSearchCI, matchHereCI_literal p hdot []]
  | cons sc ss ih =>
    simp [regexSearchCI, litSearchCI, matchHereCI_literal p hdot (sc :: ss), ih]

theorem isLiteralQuery_no_dot (q : String) (h : isLiteralQuery q = true) :
    '.' ∉ q.data := by
  intro hmem
  simp only [isLiteralQuery, List.all_eq_true] at h
  have hc := h '.' hmem
  simp [regexMeta] at hc

theorem searchMatch_literal (q : String) (h : isLiteralQuery q = true) (r : BookStore) :
    searchMatch q r =
      (substrCI q r.BookName || substrCI q r.BookAuthor || substrCI q r.BookISBN) := by
  have hdot := isLiteralQuery_no_dot q h
  simp [searchMatch, editionClause, substrCI,
    regexSearchCI_literal q.data hdot r.BookName.data,
    regexSearchCI_literal q.data hdot r.BookAuthor.data,
    regexSearchCI_literal q.data hdot r.BookISBN.data]

/-- C7 (amended): the empty query is rejected with 400 before any store
access; a non-empty query free of regex metacharacters returns exactly
the records in which the query occurs as a case-insensitive unanchored
substring of Title, Author or ISBN (the stored Edition value lives in
the ISBN field and the filter clause on the absent bookedition document
field never matches); a query containing metacharacters is interpreted
as a regex pattern, not as a literal substring. -/
theorem search_spec (store : List BookStore) (q : String) :
    (searchHandler store "" = SearchResult.badRequest 400 "Missing search query") ∧
    (q ≠ "" → isLiteralQuery q = true →
      searchHandler store q = SearchResult.ok 200 (store.filter (fun r =>
        substrCI q r.BookName || substrCI q r.BookAuthor || substrCI q r.BookISBN))) := by
  constructor
  · simp [searchHandler]
  · intro hq hlit
    simp only [searchHandler, if_neg hq]
    congr 1
    apply List.filter_congr
    intro r _
    exact searchMatch_literal q hlit r

/-- C7 counterexample: the query a.c occurs in no field of the stored
record as a substring, yet the handler returns the record because the
dot is a regex wildcard matching the b of abc. -/
theorem search_counterexample :
    searchHandler [⟨"1", "abc", "auth", "isbn", 1, 1⟩] "a.c" =
      SearchResult.ok 200 [⟨"1", "abc", "auth", "isbn", 1, 1⟩] ∧
    substrCI "a.c" "abc" = false ∧
    substrCI "a.c" "auth" = false ∧
    substrCI "a.c" "isbn" = false :=
  ⟨by decide, by decide, by decide, by decide⟩

/-- Witness for C7: the empty query is rejected and the literal query
poe finds the record whose Author is Edgar Allan Poe. -/
theorem search_spec_witness :
    searchHandler [⟨"1", "The Black Cat", "Edgar Allan Poe", "978-3", 280, 1843⟩] "" =
      SearchResult.badRequest 400 "Missing search query" ∧
    searchHandler [⟨"1", "The Black Cat", "Edgar Allan Poe", "978-3", 280, 1843⟩] "poe" =
      SearchResult.ok 200 [⟨"1", "The Black Cat", "Edgar Allan Poe", "978-3", 280, 1843⟩] :=
  ⟨(search_spec [⟨"1", "The Black Cat", "Edgar Allan Poe", "978-3", 280, 1843⟩] "poe").1,
   ((search_spec [⟨"1", "The Black Cat", "Edgar Allan Poe", "978-3", 280, 1843⟩] "poe").2
     (by decide) (by decide)).trans (by decide)⟩

/-- C10: DELETE /api/books/:id on an ID not present in the store
responds 204 No Content rather than 404; a store-level delete failure
responds with status 200 and an error body; a successful delete
responds 200 with a success message. -/
theorem deleteHandler_spec (store : List BookStore) (id : String) (e : String) :
    ((∀ r ∈ store, r.ID ≠ id) →
      deleteHandler none store id = (DeleteResponse.noContent 204, store)) ∧
    (e ≠ "book not found" →
      deleteHandler (some e) store id =
        (DeleteResponse.errorJson 200 "Failed to delete book", store)) ∧
    ((∃ r ∈ store, r.ID = id) → ∃ store2,
      deleteHandler none store id =
        (DeleteResponse.messageJson 200 "Book deleted successfully", store2)) := by
  refine ⟨?_, ?_, ?_⟩
  · intro h
    have hnone := (deleteOneByID_none_iff store id).2 h
    simp [deleteHandler, deleteBookE, deleteBook, hnone]
  · intro he
    simp [deleteHandler, deleteBookE, he]
  · rintro ⟨r, hr, hid⟩
    cases hdel : deleteOneByID store id with
    | none => exact absurd hid ((deleteOneByID_none_iff store id).1 hdel r hr)
    | some s2 => exact ⟨s2, by simp [deleteHandler, deleteBookE, deleteBook, hdel]⟩

/-- Witness for C10: a miss yields 204 and an injected store failure
yields 200 with the error body. -/
theorem deleteHandler_spec_witness :
    deleteHandler none [⟨"1", "a", "b", "c", 1, 1⟩] "2" =
      (DeleteResponse.noContent 204, [⟨"1", "a", "b", "c", 1, 1⟩]) ∧
    deleteHandler (some "network down") [⟨"1", "a", "b", "c", 1, 1⟩] "1" =
      (DeleteResponse.errorJson 200 "Failed to delete book", [⟨"1", "a", "b", "c", 1, 1⟩]) :=
  ⟨(deleteHandler_spec [⟨"1", "a", "b", "c", 1, 1⟩] "2" "network down").1 (by decide),
   (deleteHandler_spec [⟨"1", "a", "b", "c", 1, 1⟩] "1" "network down").2.1 (by decide)⟩

end Bookstore
